import Mathlib

/-
Verification of the MIR layer of the meda-lang/mire repository
(src/mir.rs) against its natural-language specification.

The data model and all operations below are shallow embeddings of the
Rust source in src/mir.rs.  The external collaborators that mir.rs
imports from the rest of the crate (the `Type` value type, the shared
code arena `Code` with its `Block`s and op slots, the identifier types,
and the `Intrinsic` tag set) are not part of the excerpt; they are
modelled from the specification (sections 3 and 6) and marked as such.

Panics (assert!, unwrap, out-of-bounds indexing) are modelled with
`Except String`, carrying the panic message.
-/

set_option autoImplicit false
set_option linter.dupNamespace false
set_option linter.unusedVariables false

namespace Mir

/-- Modelled from the spec: the six opaque, densely packed integer
identifiers are newtype-wrapped dense indices; we model each as `Nat`. -/
abbrev FuncId := Nat

/-- Modelled from the spec: instruction id, a dense index into the
instruction arena. -/
abbrev InstrId := Nat

/-- Modelled from the spec: static id. -/
abbrev StaticId := Nat

/-- Modelled from the spec: string id. -/
abbrev StrId := Nat

/-- Modelled from the spec: block id, owned by the external code arena. -/
abbrev BlockId := Nat

/-- Modelled from the spec: per-block operation id, owned by the external
code arena. -/
abbrev OpId := Nat

/-- Modelled from the spec: struct identifier supplied by collaborators
(`crate::hir::StructId`). -/
abbrev StructId := Nat

/-- Modelled from the spec: module-scope identifier supplied by
collaborators (`crate::hir::ModScopeId`). -/
abbrev ModScopeId := Nat

/-- Modelled from the spec: symbol-interner symbol for function names. -/
abbrev Sym := Nat

/-- Modelled from the spec: the intrinsic tag set, an opaque tag. -/
abbrev Intrinsic := Nat

/-- Modelled from the spec: the external `Type` value type
(`crate::ty::Type`), with the distinguished forms the MIR layer relies
on (Bool, Ty, Mod, Struct(struct-id)) plus numeric and pointer types. -/
inductive Ty where
  | Bool
  | Ty
  | Mod
  | Struct (id : StructId)
  | Int (bits : Nat) (signed : Bool)
  | Float (bits : Nat)
  | Pointer (pointee : Ty) (is_mut : Bool)
  deriving DecidableEq, Repr

/-- Alias for `Ty`, usable inside inductive declarations whose own
constructor names would shadow it. -/
abbrev TyT := Ty

/-- Embedded from src/mir.rs: the `Const` variant set.  The `f64`
payload of `Float` is carried opaquely as its bit pattern; this module
never computes with it. -/
inductive Const where
  | Int (lit : Nat) (ty : TyT)
  | Float (lit : Nat) (ty : TyT)
  | Str (id : StrId) (ty : TyT)
  | Bool (b : Bool)
  | Ty (t : TyT)
  | Mod (id : ModScopeId)
  | StructLit (fields : List Const) (id : StructId)

/-- Embedded from src/mir.rs: `Const::ty`. -/
def Const.ty : Const → TyT
  | .Int _ t => t
  | .Float _ t => t
  | .Str _ t => t
  | .Bool _ => Ty.Bool
  | .Ty _ => Ty.Ty
  | .Mod _ => Ty.Mod
  | .StructLit _ id => Ty.Struct id

/-- Alias for `Const`, usable inside inductive declarations whose own
constructor names would shadow it. -/
abbrev ConstT := Const

/-- Alias for `Intrinsic`, usable inside inductive declarations whose
own constructor names would shadow it. -/
abbrev IntrinsicT := Intrinsic

/-- Embedded from src/mir.rs: the `Instr` variant set (SmallVec payloads
become lists). -/
inductive Instr where
  | Void
  | Const (c : ConstT)
  | Alloca (t : Ty)
  | LogicalNot (i : InstrId)
  | Call (arguments : List InstrId) (func : FuncId)
  | Intrinsic (arguments : List InstrId) (ty : Ty) (intr : IntrinsicT)
  | Reinterpret (i : InstrId) (t : Ty)
  | Truncate (i : InstrId) (t : Ty)
  | SignExtend (i : InstrId) (t : Ty)
  | ZeroExtend (i : InstrId) (t : Ty)
  | FloatCast (i : InstrId) (t : Ty)
  | FloatToInt (i : InstrId) (t : Ty)
  | IntToFloat (i : InstrId) (t : Ty)
  | Load (i : InstrId)
  | Store (location : InstrId) (value : InstrId)
  | AddressOfStatic (id : StaticId)
  | Pointer (op : InstrId) (is_mut : Bool)
  | Struct (fields : List InstrId) (id : StructId)
  | StructLit (fields : List InstrId) (id : StructId)
  | DirectFieldAccess (val : InstrId) (index : Nat)
  | IndirectFieldAccess (val : InstrId) (index : Nat)
  | Ret (i : InstrId)
  | Br (bb : BlockId)
  | CondBr (condition : InstrId) (true_bb : BlockId) (false_bb : BlockId)
  | Parameter (t : Ty)

/-- Embedded from src/mir.rs: the `Function` record.  Index 0 of
`blocks` is defined to be the entry block. -/
structure Function where
  name : Option Sym
  ret_ty : Ty
  blocks : List BlockId

/-- Embedded from src/mir.rs: `StructLayout`. -/
structure StructLayout where
  field_offsets : List Nat
  alignment : Nat
  size : Nat
  stride : Nat

/-- Embedded from src/mir.rs: the `Struct` descriptor. -/
structure Struct where
  field_tys : List Ty
  layout : StructLayout

/-- Embedded from src/mir.rs: `BlockState`, the per-block ledger state. -/
inductive BlockState where
  | Created
  | Started
  | Ended
  deriving DecidableEq, Repr

/-- Rust's Debug formatting of a `BlockState`, used in the end_block
panic message. -/
def BlockState.debugName : BlockState → String
  | .Created => "Created"
  | .Started => "Started"
  | .Ended => "Ended"

/-- Modelled from the spec: an op slot of a block in the external code
arena is "either a MIR instruction reference or some other op kind";
the other kinds are opaque here. -/
inductive Op where
  | mirInstr (i : InstrId)
  | other (k : Nat)

/-- Modelled from the spec: the accessor `as_mir_instr` on an op slot,
yielding the MIR instruction reference when the slot holds one. -/
def Op.as_mir_instr : Op → Option InstrId
  | .mirInstr i => some i
  | .other _ => none

/-- Modelled from the spec: a `Block` of the external code arena holds
an ordered list of operation slots. -/
structure Block where
  ops : List Op

/-- Lookup in an association list, modelling `HashMap::get` /
`HashMap::entry` reads on the block-state ledger. -/
def lookupState : List (BlockId × BlockState) → BlockId → Option BlockState
  | [], _ => none
  | (b', s) :: rest, b => if b' = b then some s else lookupState rest b

/-- Insert-or-replace in an association list, modelling a `HashMap`
write on the block-state ledger. -/
def insertState : List (BlockId × BlockState) → BlockId → BlockState → List (BlockId × BlockState)
  | [], b, s => [(b, s)]
  | (b', s') :: rest, b, s =>
    if b' = b then (b, s) :: rest else (b', s') :: insertState rest b s

/-- Embedded from src/mir.rs: the `MirCode` arena (IndexVec / HashMap
containers become lists / association lists). -/
structure MirCode where
  strings : List String
  functions : List Function
  statics : List Const
  structs : List (StructId × Struct)
  instrs : List Instr
  block_states : List (BlockId × BlockState)

/-- Embedded from src/mir.rs: the `Default` instance of `MirCode`
(every container empty). -/
def mirDefault : MirCode :=
  { strings := [], functions := [], statics := [], structs := [],
    instrs := [], block_states := [] }

/-- Embedded from src/mir.rs: `MirCode::get_block_state`, the
`entry(block).or_insert(BlockState::Created)` read-or-insert.  Returns
the possibly extended arena together with the state read. -/
def MirCode.get_block_state (m : MirCode) (b : BlockId) : MirCode × BlockState :=
  match lookupState m.block_states b with
  | some s => (m, s)
  | none => ({ m with block_states := insertState m.block_states b .Created }, .Created)

/-- Embedded from src/mir.rs: `MirCode::start_block`.  The assert
failure is the `.error` case. -/
def MirCode.start_block (m : MirCode) (b : BlockId) : Except String MirCode :=
  match m.get_block_state b with
  | (_, .Ended) => .error "MIR: tried to start an ended block"
  | (m1, _) => .ok { m1 with block_states := insertState m1.block_states b .Started }

/-- Embedded from src/mir.rs: `MirCode::end_block`.  Note that, exactly
as in the source, the ok path does not write any state: the function
only asserts that the state is `Started`. -/
def MirCode.end_block (m : MirCode) (b : BlockId) : Except String MirCode :=
  match m.get_block_state b with
  | (m1, .Started) => .ok m1
  | (_, s) => .error ("MIR: tried to end a block in the " ++ s.debugName ++ " state")

/-- Embedded from src/mir.rs: the loop body of
`MirCode::check_all_blocks_ended` over the function's block list.
Indexing a `HashMap` with an absent key panics with Rust's
"no entry found for key" message. -/
def checkBlocks (m : MirCode) : List BlockId → Except String Unit
  | [] => .ok ()
  | b :: rest =>
    match lookupState m.block_states b with
    | none => .error "no entry found for key"
    | some s =>
      match s with
      | .Ended => checkBlocks m rest
      | _ => .error ("Block " ++ Nat.repr b ++ " was not ended")

/-- Embedded from src/mir.rs: `MirCode::check_all_blocks_ended`. -/
def MirCode.check_all_blocks_ended (m : MirCode) (func : Function) : Except String Unit :=
  checkBlocks m func.blocks

/-- Observation of a block's ledger state: `Created` is represented by
absence (spec section 9), so an absent entry reads as `Created`. -/
def MirCode.block_state_of (m : MirCode) (b : BlockId) : BlockState :=
  (lookupState m.block_states b).getD .Created

/-- Embedded from src/mir.rs: the shared code arena `Code` (modelled
from the spec for its own fields: it owns the blocks and embeds the
`MirCode` arena as its `mir_code` field, which mir.rs accesses as
`self.mir_code`). -/
structure Code where
  blocks : List Block
  mir_code : MirCode

/-- Embedded from src/mir.rs: the sealed `GetBlock` capability admits
exactly the two block-reference forms, a block id to be resolved or an
already-borrowed block; we model the sealed trait as a closed sum. -/
inductive BlockRef where
  | byId (b : BlockId)
  | borrowed (blk : Block)

/-- Embedded from src/mir.rs: the two `get_block` impls.  For a block
id the resolution is the arena lookup `&code.blocks[self]` (a panic
when out of range); for a borrowed block it is the identity. -/
def BlockRef.get_block : BlockRef → Code → Except String Block
  | .byId b, code =>
    match code.blocks.get? b with
    | some blk => .ok blk
    | none => .error "index out of bounds"
  | .borrowed blk, _ => .ok blk

/-- Embedded from src/mir.rs: `Code::get_mir_instr`.  The op-slot index
and the instruction-arena index both panic when out of range, exactly as
`block.ops[op]` and `self.mir_code.instrs[instr]` do. -/
def Code.get_mir_instr (code : Code) (r : BlockRef) (op : OpId) : Except String (Option Instr) :=
  match r.get_block code with
  | .error e => .error e
  | .ok block =>
    match block.ops.get? op with
    | none => .error "index out of bounds"
    | some slot =>
      match slot.as_mir_instr with
      | none => .ok none
      | some i =>
        match code.mir_code.instrs.get? i with
        | none => .error "index out of bounds"
        | some ins => .ok (some ins)

/-- Embedded from src/mir.rs: the `for i in 1..block.ops.len()` loop of
`Code::num_parameters`, as structural recursion on the number of
iterations still to run (`r = block.ops.len() - i`, so the loop index
`i` stays below `block.ops.len()` exactly while `r > 0`).  The `unwrap`
of the `Option` returned by `get_mir_instr` is the "called
Option::unwrap" error. -/
def numParamsFrom (code : Code) (block : Block) (i acc : Nat) : Nat → Except String Nat
  | 0 => .ok acc
  | r + 1 =>
    match code.get_mir_instr (.borrowed block) i with
    | .error e => .error e
    | .ok none => .error "called Option::unwrap on a None value"
    | .ok (some (Instr.Parameter _)) => numParamsFrom code block (i + 1) (acc + 1) r
    | .ok (some _) => .ok acc

/-- Embedded from src/mir.rs: `Code::num_parameters`.  `func.blocks[0]`
and `self.blocks[entry]` panic when out of range; the `assert_eq` on the
leading Void is the assertion-failure error. -/
def Code.num_parameters (code : Code) (func : Function) : Except String Nat :=
  match func.blocks.get? 0 with
  | none => .error "index out of bounds"
  | some entry =>
    match code.blocks.get? entry with
    | none => .error "index out of bounds"
    | some block =>
      match code.get_mir_instr (.borrowed block) 0 with
      | .error e => .error e
      | .ok none => .error "called Option::unwrap on a None value"
      | .ok (some Instr.Void) => numParamsFrom code block 1 0 (block.ops.length - 1)
      | .ok (some _) => .error "assertion failed: void_instr == Instr::Void"

/-- A build-time ledger operation: one `start_block` or one `end_block`
call. -/
inductive LedgerOp where
  | startB (b : BlockId)
  | endB (b : BlockId)

/-- Run one ledger operation on the arena. -/
def runStep (m : MirCode) : LedgerOp → Except String MirCode
  | .startB b => m.start_block b
  | .endB b => m.end_block b

/-- The sequence of arena states observed along a run of ledger
operations; a panic (the error case) ends the observed sequence. -/
def ledgerTrace (m : MirCode) : List LedgerOp → List MirCode
  | [] => [m]
  | op :: rest =>
    match runStep m op with
    | .error _ => [m]
    | .ok m' => m :: ledgerTrace m' rest

/-- Resolve every op slot of a block to its MIR instruction: `some`
exactly when each slot holds an in-range MIR instruction reference. -/
def resolveOps (code : Code) : List Op → Option (List Instr)
  | [] => some []
  | o :: rest =>
    match o.as_mir_instr with
    | none => none
    | some i =>
      match code.mir_code.instrs.get? i with
      | none => none
      | some ins =>
        match resolveOps code rest with
        | none => none
        | some l => some (ins :: l)

/-- Stated from the spec: the length of the maximal contiguous run of
`Parameter` instructions at the head of an instruction list. -/
def paramRun : List Instr → Nat
  | (Instr.Parameter _) :: rest => paramRun rest + 1
  | _ => 0

/-- The continuation chosen by one iteration of the `num_parameters`
loop once the current op slot's instruction is known. -/
def loopStepSpec (code : Code) (block : Block) (i acc r : Nat) : Instr → Except String Nat
  | .Parameter _ => numParamsFrom code block (i + 1) (acc + 1) r
  | _ => .ok acc

/-- The i32 type used by the concrete scenarios. -/
def tyI32 : Ty := Ty.Int 32 true

/-- Concrete scenario (spec S1/S5): the arena after `start_block(0)`:
block 0 is recorded `Started`. -/
def mirStarted0 : MirCode := { mirDefault with block_states := [(0, .Started)] }

/-- Concrete scenario (spec S5): start block 0, end it, then end it a
second time. -/
def c1Run : Except String MirCode :=
  (mirDefault.start_block 0).bind fun m =>
    (m.end_block 0).bind fun m2 => m2.end_block 0

/-- Concrete scenario (spec S1): a function with the single block 0. -/
def c2Func : Function := { name := none, ret_ty := tyI32, blocks := [0] }

/-- Concrete scenario (spec S1): the MIR arena holding the emitted
instructions Void, Const(Int{0,i32}), Ret. -/
def c2Mir : MirCode :=
  { mirDefault with instrs := [.Void, .Const (.Int 0 tyI32), .Ret 1] }

/-- Concrete scenario (spec S1): the arena of `c2Mir` after
`start_block(0); end_block(0)`. -/
def c2MirStarted : MirCode := { c2Mir with block_states := [(0, .Started)] }

/-- Concrete scenario (spec S1): the code arena whose block 0 holds the
three emitted ops. -/
def c2Code : Code :=
  { blocks := [⟨[.mirInstr 0, .mirInstr 1, .mirInstr 2]⟩], mir_code := c2MirStarted }

/-- Concrete scenario (spec S6): a function listing the two blocks 0
and 1. -/
def c3Func : Function := { name := none, ret_ty := tyI32, blocks := [0, 1] }

/-- Concrete scenario (spec S6): start blocks 0 and 1, end only
block 0. -/
def c3Run : Except String MirCode :=
  (mirDefault.start_block 0).bind fun m =>
    (m.start_block 1).bind fun m2 => m2.end_block 0

/-- Concrete scenario (spec S6): the ledger after starting blocks 0 and
1 and ending block 0: both blocks still read `Started`. -/
def c3After : MirCode :=
  { mirDefault with block_states := [(0, .Started), (1, .Started)] }

/-- A one-block function used by the entry-block scenarios. -/
def f1 : Function := { name := none, ret_ty := Ty.Bool, blocks := [0] }

/-- Counterexample input: the entry block's op 0 is the Void
instruction but op 1 is a non-MIR op slot. -/
def c4Code : Code :=
  { blocks := [⟨[.mirInstr 0, .other 0]⟩], mir_code := { mirDefault with instrs := [.Void] } }

/-- Witness input (spec S3): entry-block ops Void, Parameter(i32),
Const(Bool(true)), Parameter(i32), Ret. -/
def c4wInstrs : List Instr :=
  [.Void, .Parameter tyI32, .Const (.Bool true), .Parameter tyI32, .Ret 1]

/-- Witness input (spec S3): the code arena for `c4wInstrs`, block 0
holding one MIR op slot per instruction. -/
def c4wCode : Code :=
  { blocks := [⟨[.mirInstr 0, .mirInstr 1, .mirInstr 2, .mirInstr 3, .mirInstr 4]⟩],
    mir_code := { mirDefault with instrs := c4wInstrs } }

/-- An arena in which block 0 has been recorded `Ended`. -/
def mirEnded0 : MirCode := { mirDefault with block_states := [(0, .Ended)] }

/-- Witness input for the arena helpers: a block with one MIR op slot
and one non-MIR op slot, over an arena holding a single Void
instruction. -/
def w8Block : Block := ⟨[.mirInstr 0, .other 5]⟩

/-- Witness input for the arena helpers: the code arena whose only
block is `w8Block`. -/
def w8Code : Code :=
  { blocks := [w8Block], mir_code := { mirDefault with instrs := [.Void] } }

/-- Witness input: a function listing no blocks at all. -/
def emptyFunc : Function := { name := none, ret_ty := Ty.Bool, blocks := [] }

/-- Reading back the key just written into the ledger yields the new
state. -/
theorem lookupState_insertState_self (l : List (BlockId × BlockState)) (b : BlockId) (s : BlockState) :
    lookupState (insertState l b s) b = some s := by
  induction l with
  | nil => simp [insertState, lookupState]
  | cons p rest ih =>
    obtain ⟨b', s'⟩ := p
    by_cases h : b' = b
    · simp [insertState, h, lookupState]
    · simp [insertState, h, lookupState, ih]

/-- Writing one key of the ledger leaves every other key unchanged. -/
theorem lookupState_insertState_ne (l : List (BlockId × BlockState)) (b b' : BlockId) (s : BlockState) (h : b' ≠ b) :
    lookupState (insertState l b' s) b = lookupState l b := by
  induction l with
  | nil => simp [insertState, lookupState, h]
  | cons p rest ih =>
    obtain ⟨b2, s2⟩ := p
    by_cases h2 : b2 = b'
    · subst h2; simp [insertState, lookupState, h, ih]
    · simp [insertState, h2, lookupState, ih]

/-- The read-or-insert of `get_block_state` does not change any
observed block state. -/
theorem get_block_state_fst_state (m : MirCode) (b b2 : BlockId) :
    ((m.get_block_state b).1).block_state_of b2 = m.block_state_of b2 := by
  unfold MirCode.get_block_state
  cases hl : lookupState m.block_states b with
  | some s => rfl
  | none =>
    by_cases hb : b = b2
    · subst hb
      simp [MirCode.block_state_of, hl, lookupState_insertState_self]
    · simp [MirCode.block_state_of, lookupState_insertState_ne _ _ _ _ hb]

/-- The state read by `get_block_state` is the observed state. -/
theorem get_block_state_snd (m : MirCode) (b : BlockId) :
    (m.get_block_state b).2 = m.block_state_of b := by
  unfold MirCode.get_block_state MirCode.block_state_of
  cases hl : lookupState m.block_states b <;> simp [hl]

/-- A successful `start_block b` records `Started` for `b`. -/
theorem start_block_ok_self (m m' : MirCode) (b : BlockId)
    (h : m.start_block b = .ok m') : m'.block_state_of b = .Started := by
  unfold MirCode.start_block at h
  split at h
  · exact absurd h (by simp)
  · cases h
    simp [MirCode.block_state_of, lookupState_insertState_self]

/-- A successful `start_block b` leaves the state of every other block
unchanged. -/
theorem start_block_ok_other (m m' : MirCode) (b b2 : BlockId)
    (h : m.start_block b = .ok m') (hne : b ≠ b2) :
    m'.block_state_of b2 = m.block_state_of b2 := by
  unfold MirCode.start_block at h
  split at h
  · exact absurd h (by simp)
  · cases h
    rename_i m1 s heq
    have h1 : ((m.get_block_state b).1).block_state_of b2 = m.block_state_of b2 :=
      get_block_state_fst_state m b b2
    rw [heq] at h1
    simpa [MirCode.block_state_of, lookupState_insertState_ne _ _ _ _ hne] using h1

/-- `start_block b` fails exactly on an `Ended` block. -/
theorem start_block_err_iff (m : MirCode) (b : BlockId) :
    (∃ e, m.start_block b = .error e) ↔ m.block_state_of b = .Ended := by
  unfold MirCode.start_block
  have hs := get_block_state_snd m b
  split
  · rename_i m1 heq
    have : m.block_state_of b = .Ended := by
      rw [← hs, heq]
    simp [this]
  · rename_i m1 s hnm heq
    have : m.block_state_of b = s := by rw [← hs, heq]
    simp only [this]
    constructor
    · intro hex
      obtain ⟨e, he⟩ := hex
      exact absurd he (by simp)
    · intro hcon
      exact absurd hcon hnm

/-- A successful `end_block` neither changes the arena nor reads any
state but `Started` (the source never writes `Ended`). -/
theorem end_block_ok (m m' : MirCode) (b : BlockId)
    (h : m.end_block b = .ok m') : m' = m ∧ m.block_state_of b = .Started := by
  unfold MirCode.end_block at h
  split at h
  · rename_i m1 heq
    cases h
    have hs := get_block_state_snd m b
    rw [heq] at hs
    have hl : lookupState m.block_states b = some .Started := by
      unfold MirCode.block_state_of at hs
      cases hl2 : lookupState m.block_states b with
      | none =>
        rw [hl2] at hs
        simp at hs
      | some s2 =>
        rw [hl2] at hs
        simp at hs
        rw [hs]
    have hfst : (m.get_block_state b).1 = m := by
      unfold MirCode.get_block_state
      rw [hl]
    constructor
    · rw [← hfst, heq]
    · exact hs.symm ▸ rfl
  · exact absurd h (by simp)

/-- Once a block reads `Started`, every successful ledger operation
leaves it `Started`. -/
theorem runStep_keeps_started (m m' : MirCode) (op : LedgerOp) (b : BlockId)
    (h : runStep m op = .ok m') (hb : m.block_state_of b = .Started) :
    m'.block_state_of b = .Started := by
  cases op with
  | startB b' =>
    by_cases hbb : b' = b
    · subst hbb; exact start_block_ok_self m m' b' h
    · rw [start_block_ok_other m m' b' b h hbb]; exact hb
  | endB b' =>
    rw [(end_block_ok m m' b' h).1]; exact hb

/-- From a `Created` block, a successful ledger operation leaves it
`Created` or moves it to `Started`. -/
theorem runStep_from_created (m m' : MirCode) (op : LedgerOp) (b : BlockId)
    (h : runStep m op = .ok m') (hb : m.block_state_of b = .Created) :
    m'.block_state_of b = .Created ∨ m'.block_state_of b = .Started := by
  cases op with
  | startB b' =>
    by_cases hbb : b' = b
    · subst hbb; exact Or.inr (start_block_ok_self m m' b' h)
    · rw [start_block_ok_other m m' b' b h hbb]; exact Or.inl hb
  | endB b' =>
    rw [(end_block_ok m m' b' h).1]; exact Or.inl hb

/-- The trace of a block that reads `Started` is constantly
`Started`. -/
theorem trace_from_started (ops : List LedgerOp) :
    ∀ (m : MirCode) (b : BlockId), m.block_state_of b = .Started →
      ∃ n, (ledgerTrace m ops).map (fun x => x.block_state_of b)
            = List.replicate (n + 1) BlockState.Started := by
  induction ops with
  | nil =>
    intro m b hb
    exact ⟨0, by simp [ledgerTrace, hb]⟩
  | cons op rest ih =>
    intro m b hb
    unfold ledgerTrace
    cases hstep : runStep m op with
    | error e => exact ⟨0, by simp [hb]⟩
    | ok m' =>
      obtain ⟨n, hn⟩ := ih m' b (runStep_keeps_started m m' op b hstep hb)
      exact ⟨n + 1, by simp [hb, hn, List.replicate_succ]⟩

/-- The trace of a block that reads `Created` is a run of `Created`
states, possibly followed by a run of `Started` states. -/
theorem trace_from_created (ops : List LedgerOp) :
    ∀ (m : MirCode) (b : BlockId), m.block_state_of b = .Created →
      (∃ n, (ledgerTrace m ops).map (fun x => x.block_state_of b)
              = List.replicate (n + 1) BlockState.Created)
      ∨ (∃ k n, (ledgerTrace m ops).map (fun x => x.block_state_of b)
              = List.replicate (k + 1) BlockState.Created
                  ++ List.replicate (n + 1) BlockState.Started) := by
  induction ops with
  | nil =>
    intro m b hb
    exact Or.inl ⟨0, by simp [ledgerTrace, hb]⟩
  | cons op rest ih =>
    intro m b hb
    unfold ledgerTrace
    cases hstep : runStep m op with
    | error e => exact Or.inl ⟨0, by simp [hb]⟩
    | ok m' =>
      cases runStep_from_created m m' op b hstep hb with
      | inl hc =>
        cases ih m' b hc with
        | inl h1 =>
          obtain ⟨n, hn⟩ := h1
          exact Or.inl ⟨n + 1, by simp [hb, hn, List.replicate_succ]⟩
        | inr h2 =>
          obtain ⟨k, n, hn⟩ := h2
          refine Or.inr ⟨k + 1, n, ?_⟩
          simp [hb, hn, List.replicate_succ]
      | inr hs =>
        obtain ⟨n, hn⟩ := trace_from_started rest m' b hs
        refine Or.inr ⟨0, n, ?_⟩
        simp [hb, hn, List.replicate_succ]

/-- Deduplicating a nonempty constant list gives the singleton. -/
theorem dedup_replicate (n : Nat) (a : BlockState) :
    (List.replicate (n + 1) a).dedup = [a] := by
  induction n with
  | zero => simp
  | succ n ih =>
    rw [List.replicate_succ, List.dedup_cons_of_mem (by simp [List.mem_replicate])]
    exact ih

/-- Deduplicating a `Created` run followed by a `Started` run gives the
two-element chain. -/
theorem dedup_created_started (k n : Nat) :
    (List.replicate (k + 1) BlockState.Created
        ++ List.replicate (n + 1) BlockState.Started).dedup
      = [BlockState.Created, BlockState.Started] := by
  induction k with
  | zero =>
    rw [List.replicate_succ, List.replicate_zero]
    simp only [List.nil_append, List.cons_append]
    rw [List.dedup_cons_of_not_mem (by simp [List.mem_replicate])]
    rw [dedup_replicate]
  | succ k ih =>
    rw [List.replicate_succ, List.cons_append,
      List.dedup_cons_of_mem (by simp [List.mem_replicate]), ih]

@[simp]
theorem Block.ops_mk (l : List Op) : (Block.mk l).ops = l := rfl

/-- A fully resolved block has as many instructions as op slots. -/
theorem resolveOps_length (code : Code) :
    ∀ (ops : List Op) (instrs : List Instr),
      resolveOps code ops = some instrs → instrs.length = ops.length := by
  intro ops
  induction ops with
  | nil =>
    intro instrs h
    unfold resolveOps at h
    cases h
    rfl
  | cons o rest ih =>
    intro instrs h
    unfold resolveOps at h
    cases ho : o.as_mir_instr with
    | none => simp only [ho] at h; cases h
    | some j =>
      simp only [ho] at h
      cases hj : code.mir_code.instrs.get? j with
      | none => simp only [hj] at h; cases h
      | some ins0 =>
        simp only [hj] at h
        cases hr : resolveOps code rest with
        | none => simp only [hr] at h; cases h
        | some tl =>
          simp only [hr] at h
          cases h
          simp [ih tl hr]

/-- On a fully resolved block, `get_mir_instr` returns the instruction
the slot references. -/
theorem resolveOps_get (code : Code) :
    ∀ (ops : List Op) (instrs : List Instr),
      resolveOps code ops = some instrs →
      ∀ (i : Nat) (ins : Instr), instrs.get? i = some ins →
        code.get_mir_instr (.borrowed ⟨ops⟩) i = .ok (some ins) := by
  intro ops
  induction ops with
  | nil =>
    intro instrs h i ins hi
    unfold resolveOps at h
    cases h
    exact absurd hi (by simp)
  | cons o rest ih =>
    intro instrs h i ins hi
    unfold resolveOps at h
    cases ho : o.as_mir_instr with
    | none => simp only [ho] at h; cases h
    | some j =>
      simp only [ho] at h
      cases hj : code.mir_code.instrs.get? j with
      | none => simp only [hj] at h; cases h
      | some ins0 =>
        simp only [hj] at h
        cases hr : resolveOps code rest with
        | none => simp only [hr] at h; cases h
        | some tl =>
          simp only [hr] at h
          cases h
          cases i with
          | zero =>
            have hz : some ins0 = some ins := hi
            cases hz
            show (match o.as_mir_instr with
              | none => (.ok none : Except String (Option Instr))
              | some k =>
                match code.mir_code.instrs.get? k with
                | none => .error "index out of bounds"
                | some x => .ok (some x)) = .ok (some ins)
            simp only [ho, hj]
          | succ i =>
            have hi' : tl.get? i = some ins := hi
            exact ih tl hr i ins hi'

/-- Dropping up to a known element splits off that element. -/
theorem drop_eq_cons_of_get {α : Type} :
    ∀ (l : List α) (i : Nat) (a : α),
      l.get? i = some a → l.drop i = a :: l.drop (i + 1) := by
  intro l
  induction l with
  | nil => intro i a h; exact absurd h (by simp)
  | cons x xs ih =>
    intro i a h
    cases i with
    | zero =>
      have hz : x = a := by
        have : some x = some a := h
        cases this
        rfl
      subst hz
      rfl
    | succ i =>
      show xs.drop i = a :: xs.drop (i + 1)
      exact ih i a h

/-- The head Parameter extends the parameter run by one. -/
theorem paramRun_cons_param (t : Ty) (l : List Instr) :
    paramRun (Instr.Parameter t :: l) = paramRun l + 1 := rfl

/-- One iteration of the `num_parameters` loop, given the instruction
the current op slot resolves to. -/
theorem numParamsFrom_step (code : Code) (block : Block) (i acc r : Nat) (ins : Instr)
    (hmir : code.get_mir_instr (.borrowed block) i = .ok (some ins)) :
    numParamsFrom code block i acc (r + 1) = loopStepSpec code block i acc r ins := by
  unfold numParamsFrom
  simp only [hmir]
  cases ins <;> rfl

/-- On a fully resolved block the loop of `num_parameters` returns the
accumulator plus the parameter run of the remaining instructions. -/
theorem numParamsFrom_ok (code : Code) (ops : List Op) (instrs : List Instr)
    (hres : resolveOps code ops = some instrs) :
    ∀ (r i acc : Nat), r + i = ops.length →
      numParamsFrom code ⟨ops⟩ i acc r = .ok (acc + paramRun (instrs.drop i)) := by
  have hlen := resolveOps_length code ops instrs hres
  intro r
  induction r with
  | zero =>
    intro i acc h
    rw [List.drop_eq_nil_of_le (by omega : instrs.length ≤ i)]
    simp [numParamsFrom, paramRun]
  | succ r ih =>
    intro i acc h
    have hi : i < ops.length := by omega
    have hil : i < instrs.length := by omega
    have hins : instrs.get? i = some (instrs.get ⟨i, hil⟩) := List.get?_eq_get hil
    have hmir := resolveOps_get code ops instrs hres i _ hins
    have hdrop := drop_eq_cons_of_get instrs i _ hins
    rw [numParamsFrom_step code ⟨ops⟩ i acc r _ hmir, hdrop]
    clear hmir hins hdrop
    generalize instrs.get ⟨i, hil⟩ = ins0
    cases ins0
    all_goals simp only [loopStepSpec, paramRun]
    all_goals try rw [Nat.add_zero]
    rw [ih (i + 1) (acc + 1) (by omega)]
    have : acc + 1 + paramRun (instrs.drop (i + 1))
        = acc + (paramRun (instrs.drop (i + 1)) + 1) := by omega
    rw [this]

/-- If the op slots from `i` on hold a run of Parameter instructions and
then a slot holding no MIR instruction at position `j`, the loop of
`num_parameters` hits the unwrap of a `None`. -/
theorem numParamsFrom_err (code : Code) (block : Block) (j : Nat)
    (hnone : code.get_mir_instr (.borrowed block) j = .ok none) :
    ∀ (r i acc : Nat), j < i + r → i ≤ j →
      (∀ m, i ≤ m → m < j →
        ∃ t, code.get_mir_instr (.borrowed block) m = .ok (some (Instr.Parameter t))) →
      numParamsFrom code block i acc r = .error "called Option::unwrap on a None value" := by
  intro r
  induction r with
  | zero => intro i acc hb hij hrun; omega
  | succ r ih =>
    intro i acc hb hij hrun
    by_cases he : i = j
    · subst he
      unfold numParamsFrom
      simp only [hnone]
    · have hlt : i < j := by omega
      obtain ⟨t, ht⟩ := hrun i (Nat.le_refl i) hlt
      rw [numParamsFrom_step code block i acc r _ ht]
      show numParamsFrom code block (i + 1) (acc + 1) r = _
      exact ih (i + 1) (acc + 1) (by omega) (by omega) (fun m hm1 hm2 => hrun m (by omega) hm2)

/-- C1 (code behaviour at the failing input): running
`start_block(0); end_block(0); end_block(0)` on a fresh arena succeeds
throughout — the second `end_block` does not panic with a message naming
the Ended state, because `end_block` never writes `Ended`: after the
whole run block 0 still reads `Started`. -/
theorem c1_code_behavior :
    c1Run = .ok mirStarted0 ∧ mirStarted0.block_state_of 0 = .Started :=
  ⟨rfl, rfl⟩

/-- C2 (code behaviour at the failing input, spec scenario S1): build a
one-block function, start block 0, emit Void / Const / Ret, end the
block.  `num_parameters` is 0 as the claim states, but
`check_all_blocks_ended` panics with "Block 0 was not ended" instead of
succeeding, because `end_block` left the ledger state `Started`. -/
theorem c2_code_behavior :
    (c2Mir.start_block 0).bind (fun m => m.end_block 0) = .ok c2MirStarted
    ∧ c2MirStarted.check_all_blocks_ended c2Func = .error "Block 0 was not ended"
    ∧ c2Code.num_parameters c2Func = .ok 0 :=
  ⟨rfl, rfl, rfl⟩

/-- C3 (code behaviour at the failing input, spec scenario S6): with
blocks 0 and 1 started and only block 0 ended,
`check_all_blocks_ended` panics naming block 0 — not block 1 as the
claim states — because `end_block` never recorded block 0 as Ended. -/
theorem c3_code_behavior :
    c3Run = .ok c3After
    ∧ c3After.check_all_blocks_ended c3Func = .error "Block 0 was not ended" :=
  ⟨rfl, rfl⟩

/-- C5: `Const::ty` is pure and total (a total function of the constant
alone by construction) and reproduces the specified mapping exactly:
Int/Float/Str yield their embedded type, Bool the bool type, Ty the
type-of-types, Mod the module type, StructLit the struct type of its
nominated id. -/
theorem c5_const_ty :
    (∀ lit t, (Const.Int lit t).ty = t)
    ∧ (∀ lit t, (Const.Float lit t).ty = t)
    ∧ (∀ i t, (Const.Str i t).ty = t)
    ∧ (∀ b, (Const.Bool b).ty = Ty.Bool)
    ∧ (∀ t, (Const.Ty t).ty = Ty.Ty)
    ∧ (∀ i, (Const.Mod i).ty = Ty.Mod)
    ∧ (∀ fs i, (Const.StructLit fs i).ty = Ty.Struct i) :=
  ⟨fun _ _ => rfl, fun _ _ => rfl, fun _ _ => rfl, fun _ => rfl,
   fun _ => rfl, fun _ => rfl, fun _ _ => rfl⟩

/-- C6: `start_block(b)` fails fatally with the message "tried to start
an ended block" (carrying the "MIR: " tag) when b's ledger state is
Ended, and otherwise — Created (including absent) or Started — succeeds
and sets b's state to Started. -/
theorem c6_start_block (m : MirCode) (b : BlockId) :
    (m.block_state_of b = .Ended →
      m.start_block b = .error ("MIR: " ++ "tried to start an ended block"))
    ∧ (m.block_state_of b ≠ .Ended →
      ∃ m', m.start_block b = .ok m' ∧ m'.block_state_of b = .Started) := by
  have hs := get_block_state_snd m b
  constructor
  · intro h
    unfold MirCode.start_block
    split
    · rfl
    · rename_i m1 s hnm heq
      exfalso
      exact hnm (by rw [← h, ← hs, heq])
  · intro h
    unfold MirCode.start_block
    split
    · rename_i m1 heq
      exfalso
      exact h (by rw [← hs, heq])
    · rename_i m1 s hnm heq
      exact ⟨_, rfl, by simp [MirCode.block_state_of, lookupState_insertState_self]⟩

/-- Witness for C6: on an arena where block 0 is Ended, start_block
fails with the stated message; on a fresh arena (state Created by
absence), start_block succeeds and records Started. -/
theorem c6_witness :
    (mirEnded0.block_state_of 0 = .Ended
      ∧ mirEnded0.start_block 0 = .error ("MIR: " ++ "tried to start an ended block"))
    ∧ (mirDefault.block_state_of 0 ≠ .Ended
      ∧ ∃ m', mirDefault.start_block 0 = .ok m' ∧ m'.block_state_of 0 = .Started) :=
  ⟨⟨rfl, (c6_start_block mirEnded0 0).1 rfl⟩,
   ⟨by decide, (c6_start_block mirDefault 0).2 (by decide)⟩⟩

/-- C7: ledger monotonicity: for any block b and any sequence of
start_block / end_block calls from a fresh arena, the sequence of
distinct ledger states b passes through is a prefix of
Created → Started → Ended (no operation ever moves a state backward). -/
theorem c7_ledger_monotone (ops : List LedgerOp) (b : BlockId) :
    ∃ t, (((ledgerTrace mirDefault ops).map (fun m => m.block_state_of b)).dedup) ++ t
          = [BlockState.Created, BlockState.Started, BlockState.Ended] := by
  have hc : mirDefault.block_state_of b = .Created := rfl
  cases trace_from_created ops mirDefault b hc with
  | inl h1 =>
    obtain ⟨n, hn⟩ := h1
    rw [hn, dedup_replicate]
    exact ⟨[BlockState.Started, BlockState.Ended], rfl⟩
  | inr h2 =>
    obtain ⟨k, n, hn⟩ := h2
    rw [hn, dedup_created_started]
    exact ⟨[BlockState.Ended], rfl⟩

/-- C4 counterexample: in `c4Code` the entry block's op 0 resolves to
the Void instruction and the maximal run of Parameter instructions
starting at op 1 is empty (op 1 holds a non-MIR op), yet
`num_parameters` returns no count at all: it panics unwrapping the
absent MIR instruction, contradicting the claim as stated. -/
theorem c4_counterexample :
    c4Code.get_mir_instr (.borrowed ⟨[Op.mirInstr 0, Op.other 0]⟩) 0 = .ok (some Instr.Void)
    ∧ (∀ n, c4Code.num_parameters f1 ≠ .ok n)
    ∧ c4Code.num_parameters f1 = .error "called Option::unwrap on a None value" := by
  refine ⟨rfl, ?_, rfl⟩
  intro n h
  have h2 : (Except.error "called Option::unwrap on a None value" : Except String Nat)
      = Except.ok n := h
  cases h2

/-- C4 (amended): for every function whose entry block's op slots all
resolve to MIR instructions, if op 0 resolves to the Void instruction
then `num_parameters` returns the length of the maximal contiguous run
of Parameter instructions starting at op 1, and it fails fatally when
op 0 resolves to a non-Void instruction. -/
theorem c4_amended (code : Code) (func : Function) (entry : BlockId) (ops : List Op)
    (instrs : List Instr)
    (h0 : func.blocks.get? 0 = some entry)
    (h1 : code.blocks.get? entry = some ⟨ops⟩)
    (h2 : resolveOps code ops = some instrs) :
    (∀ rest, instrs = Instr.Void :: rest →
      code.num_parameters func = .ok (paramRun rest))
    ∧ (∀ ins rest, instrs = ins :: rest → ins ≠ Instr.Void →
      code.num_parameters func = .error "assertion failed: void_instr == Instr::Void") := by
  constructor
  · intro rest hrest
    subst hrest
    have h00 : (Instr.Void :: rest).get? 0 = some Instr.Void := rfl
    have hmir := resolveOps_get code ops _ h2 0 _ h00
    have hlen := resolveOps_length code ops _ h2
    unfold Code.num_parameters
    simp only [h0, h1, hmir]
    have hok := numParamsFrom_ok code ops _ h2 (ops.length - 1) 1 0
      (by simp at hlen; omega)
    simpa using hok
  · intro ins rest hrest hne
    subst hrest
    have h00 : (ins :: rest).get? 0 = some ins := rfl
    have hmir := resolveOps_get code ops _ h2 0 _ h00
    unfold Code.num_parameters
    simp only [h0, h1, hmir]

/-- Witness for C4 (spec scenario S3): entry-block ops Void,
Parameter(i32), Const(Bool(true)), Parameter(i32), Ret resolve fully;
num_parameters returns the parameter run, which is 1. -/
theorem c4_witness :
    c4wCode.num_parameters f1
      = .ok (paramRun [.Parameter tyI32, .Const (.Bool true), .Parameter tyI32, .Ret 1])
    ∧ paramRun [.Parameter tyI32, .Const (.Bool true), .Parameter tyI32, .Ret 1] = 1 :=
  ⟨(c4_amended c4wCode f1 0
      [.mirInstr 0, .mirInstr 1, .mirInstr 2, .mirInstr 3, .mirInstr 4]
      c4wInstrs rfl rfl rfl).1
      [.Parameter tyI32, .Const (.Bool true), .Parameter tyI32, .Ret 1] rfl,
   rfl⟩

/-- C8: for every block and every in-range op index, get_mir_instr
returns the referenced MIR instruction when the slot holds a MIR
instruction reference, and returns the absence marker (ok none) rather
than failing when the slot holds a non-MIR op kind. -/
theorem c8_get_mir_instr (code : Code) (block : Block) (op : Nat) (slot : Op)
    (h : block.ops.get? op = some slot) :
    (∀ k, slot = Op.other k → code.get_mir_instr (.borrowed block) op = .ok none)
    ∧ (∀ j ins, slot = Op.mirInstr j → code.mir_code.instrs.get? j = some ins →
      code.get_mir_instr (.borrowed block) op = .ok (some ins)) := by
  constructor
  · intro k hk
    subst hk
    simp only [Code.get_mir_instr, BlockRef.get_block, h, Op.as_mir_instr]
  · intro j ins hk hins
    subst hk
    simp only [Code.get_mir_instr, BlockRef.get_block, h, Op.as_mir_instr, hins]

/-- Witness for C8: in `w8Code`, slot 1 of the block holds a non-MIR op
and get_mir_instr returns the absence marker; slot 0 references
instruction 0 (Void) and get_mir_instr returns it. -/
theorem c8_witness :
    w8Code.get_mir_instr (.borrowed w8Block) 1 = .ok none
    ∧ w8Code.get_mir_instr (.borrowed w8Block) 0 = .ok (some Instr.Void) :=
  ⟨(c8_get_mir_instr w8Code w8Block 1 (Op.other 5) rfl).1 5 rfl,
   (c8_get_mir_instr w8Code w8Block 0 (Op.mirInstr 0) rfl).2 0 Instr.Void rfl rfl⟩

/-- C9: the two block-reference forms of get_mir_instr agree: resolving
a block id is exactly the pure arena lookup, and get_mir_instr through
the id equals get_mir_instr through the borrowed block it resolves
to. -/
theorem c9_blockref_agree (code : Code) (b : BlockId) (blk : Block) (op : OpId)
    (h : code.blocks.get? b = some blk) :
    BlockRef.get_block (.byId b) code = .ok blk
    ∧ code.get_mir_instr (.byId b) op = code.get_mir_instr (.borrowed blk) op := by
  have hres : BlockRef.get_block (.byId b) code = .ok blk := by
    unfold BlockRef.get_block
    simp only [h]
  refine ⟨hres, ?_⟩
  unfold Code.get_mir_instr
  rw [hres]
  rfl

/-- Witness for C9: in `w8Code`, block id 0 resolves to `w8Block` and
the two reference forms give the same answer at op 0. -/
theorem c9_witness :
    BlockRef.get_block (.byId 0) w8Code = .ok w8Block
    ∧ w8Code.get_mir_instr (.byId 0) 0 = w8Code.get_mir_instr (.borrowed w8Block) 0 :=
  c9_blockref_agree w8Code 0 w8Block 0 rfl

/-- C10: `num_parameters` panics rather than returning a count whenever
the function lists no blocks (the entry lookup indexes position 0), or
an inspected op slot of the entry block — op 0, or a slot of the
scanned run starting at op 1 — holds no MIR instruction reference, so
the Option returned by get_mir_instr is unwrapped on none. -/
theorem c10_num_parameters_panics (code : Code) (func : Function)
    (h : func.blocks = []
      ∨ ∃ entry ops, func.blocks.get? 0 = some entry
        ∧ code.blocks.get? entry = some ⟨ops⟩
        ∧ (code.get_mir_instr (.borrowed ⟨ops⟩) 0 = .ok none
          ∨ (code.get_mir_instr (.borrowed ⟨ops⟩) 0 = .ok (some Instr.Void)
            ∧ ∃ j, 1 ≤ j ∧ j < ops.length
              ∧ code.get_mir_instr (.borrowed ⟨ops⟩) j = .ok none
              ∧ ∀ m, 1 ≤ m → m < j →
                  ∃ t, code.get_mir_instr (.borrowed ⟨ops⟩) m
                        = .ok (some (Instr.Parameter t))))) :
    ∃ e, code.num_parameters func = .error e := by
  cases h with
  | inl hnil =>
    refine ⟨"index out of bounds", ?_⟩
    unfold Code.num_parameters
    simp only [hnil]
    rfl
  | inr hex =>
    obtain ⟨entry, ops, h0, h1, hcase⟩ := hex
    cases hcase with
    | inl hop0 =>
      refine ⟨"called Option::unwrap on a None value", ?_⟩
      unfold Code.num_parameters
      simp only [h0, h1, hop0]
    | inr hrun =>
      obtain ⟨hvoid, j, hj1, hjlen, hjnone, hparams⟩ := hrun
      refine ⟨"called Option::unwrap on a None value", ?_⟩
      unfold Code.num_parameters
      simp only [h0, h1, hvoid]
      have herr := numParamsFrom_err code ⟨ops⟩ j hjnone (ops.length - 1) 1 0
        (by omega) hj1 hparams
      simpa using herr

/-- Witness for C10: a function listing no blocks makes num_parameters
panic. -/
theorem c10_witness : ∃ e, w8Code.num_parameters emptyFunc = .error e :=
  c10_num_parameters_panics w8Code emptyFunc (Or.inl rfl)

end Mir
